/-
Verification development for the reminder-bot repository.

The Python sources are shallowly embedded as executable Lean definitions:
  * `src/reminder/parser.py`  — the date/time parser (matchers `p_minutes`,
    `p_hours`, `p_days`, `p_tomorrow`, `p_weekday`, `p_monthday`, `p_time`
    and the driver `parse_reminder`),
  * `src/reminder/db.py`      — the persistence store over an in-memory list
    of records (rowids model sqlite's max-rowid-plus-one assignment, the
    ISO-8601 text comparison of the `datetime` column is modelled by the
    chronological order `dtLt`, which agrees with the lexicographic order of
    equal-format ISO strings),
  * `src/reminder/handlers.py` — the message router,
  * `src/reminder/bot.py`      — the update filter and the handler boundary,
  * `src/reminder/sender.py`   — the delivery loop's tick.

Python exceptions are modelled by `Except Err`; `Err.parseError` stands for
`parser.ParseError`, `Err.valueError` for a plain `ValueError` that is not a
`ParseError`, `Err.typeError` for `TypeError`, `Err.sendError` for an error
raised by an outbound send.  Text is modelled as `List Char`; the regular
expressions of the parser (all matched with `re.search` and `re.I`) are
embedded as hand-rolled leftmost searchers with the same backtracking
preferences as the Python patterns.
-/
import Mathlib

namespace Reminder

/-- Exception kinds raised by the embedded code.  `parseError` corresponds to
`parser.ParseError`; `valueError` corresponds to a plain `ValueError` (the
class `ParseError` is a subclass of `ValueError`, so an `except ParseError`
clause does not catch `valueError`); `typeError` corresponds to `TypeError`;
`sendError` to a failure of `Bot.send_message`. -/
inductive Err where
  | parseError
  | valueError
  | typeError
  | sendError
deriving DecidableEq, Repr

/-! ### Characters and case-insensitive literal matching -/

/-- Lowercasing as used by `re.I` / `str.lower` on the characters occurring in
the parser's patterns: Cyrillic А..Я and ASCII letters. -/
def lowerRu (c : Char) : Char :=
  if 'А' ≤ c && c ≤ 'Я' then Char.ofNat (c.toNat + 32)
  else if c == 'Ё' then 'ё'
  else c.toLower

def isDigit (c : Char) : Bool := '0' ≤ c && c ≤ '9'

def isDigit19 (c : Char) : Bool := '1' ≤ c && c ≤ '9'

def dval (c : Char) : Nat := c.toNat - '0'.toNat

/-- Match a (lowercase) literal pattern case-insensitively at the head of the
input; on success return the rest of the input. -/
def litMatch : List Char → List Char → Option (List Char)
  | [], s => some s
  | _ :: _, [] => none
  | p :: ps, c :: cs => if lowerRu c == p then litMatch ps cs else none

/-- Python `str.strip()` on the whitespace that can occur in messages. -/
def isSpace (c : Char) : Bool := c == ' ' || c == '\t' || c == '\n' || c == '\r'

def pyStrip (l : List Char) : List Char :=
  ((l.dropWhile isSpace).reverse.dropWhile isSpace).reverse

/-! ### Dates and times (`datetime.date`, `datetime.time`, `datetime.datetime`) -/

structure Date where
  year : Nat
  month : Nat
  day : Nat
deriving DecidableEq, BEq, Repr

def isLeap (y : Nat) : Bool := (y % 4 == 0 && y % 100 != 0) || y % 400 == 0

def daysInMonth (y m : Nat) : Nat :=
  if m == 2 then (if isLeap y then 29 else 28)
  else if m == 4 || m == 6 || m == 9 || m == 11 then 30
  else 31

/-- The `datetime.date` constructor: `None` models the `ValueError` raised on
an out-of-range year/month/day combination. -/
def Date.mk? (y m d : Nat) : Option Date :=
  if 1 ≤ y && y ≤ 9999 && 1 ≤ m && m ≤ 12 && 1 ≤ d && d ≤ daysInMonth y m then
    some ⟨y, m, d⟩
  else none

def dateLt (a b : Date) : Bool :=
  a.year < b.year ||
    (a.year == b.year &&
      (a.month < b.month || (a.month == b.month && a.day < b.day)))

def nextDay (d : Date) : Date :=
  if d.day < daysInMonth d.year d.month then ⟨d.year, d.month, d.day + 1⟩
  else if d.month < 12 then ⟨d.year, d.month + 1, 1⟩
  else ⟨d.year + 1, 1, 1⟩

/-- `date + timedelta(days = n)` for the nonnegative day counts used here. -/
def addDays (d : Date) : Nat → Date
  | 0 => d
  | n + 1 => nextDay (addDays d n)

def daysBeforeMonth (y : Nat) : Nat → Nat
  | 0 => 0
  | 1 => 0
  | n + 1 => daysBeforeMonth y n + daysInMonth y n

/-- Proleptic-Gregorian ordinal, matching Python's `date.toordinal` where
0001-01-01 has ordinal 1. -/
def toOrdinal (d : Date) : Nat :=
  let n := d.year - 1
  365 * n + n / 4 + n / 400 - n / 100 + daysBeforeMonth d.year d.month + d.day

/-- `date.weekday()`: Monday is 0, Sunday is 6. -/
def dateWeekday (d : Date) : Nat := (toOrdinal d + 6) % 7

structure Time where
  hour : Nat
  minute : Nat
  second : Nat
  microsecond : Nat
deriving DecidableEq, BEq, Repr

/-- The `datetime.time(hour, minute)` constructor; `none` models the plain
`ValueError` raised when the hour exceeds 23 or the minutes exceed 59. -/
def Time.mk? (h m : Nat) : Option Time :=
  if h ≤ 23 && m ≤ 59 then some ⟨h, m, 0, 0⟩ else none

def timeLt (a b : Time) : Bool :=
  a.hour < b.hour ||
    (a.hour == b.hour &&
      (a.minute < b.minute ||
        (a.minute == b.minute &&
          (a.second < b.second ||
            (a.second == b.second && a.microsecond < b.microsecond)))))

structure DateTime where
  date : Date
  time : Time
deriving DecidableEq, BEq, Repr

def dtLt (a b : DateTime) : Bool :=
  dateLt a.date b.date || (a.date == b.date && timeLt a.time b.time)

/-- `datetime + timedelta(minutes = n)` (also used for hour deltas, as 60·n
minutes); seconds and microseconds are unchanged. -/
def addMinutesDT (x : DateTime) (n : Nat) : DateTime :=
  let tot := x.time.hour * 60 + x.time.minute + n
  ⟨addDays x.date (tot / 1440),
   ⟨tot % 1440 / 60, tot % 60, x.time.second, x.time.microsecond⟩⟩

/-- `datetime + timedelta(days = n)`. -/
def addDaysDT (x : DateTime) (n : Nat) : DateTime := ⟨addDays x.date n, x.time⟩

/-- `datetime.combine(date, time)`. -/
def combine (d : Date) (t : Time) : DateTime := ⟨d, t⟩

/-! ### The leftmost-search engine (`re.search` with `re.I`)

Each pattern is embedded as a `matchAt` function that attempts the pattern at
the head of the input and returns the captured groups together with the
length of the matched span, following the backtracking preferences of the
Python regular expression.  `search` scans positions left to right and
returns the groups together with the span `(start, stop)` of the leftmost
match, exactly as `re.search` does. -/

def searchFrom {α : Type} (f : List Char → Option (α × Nat)) (i : Nat) :
    List Char → Option (α × Nat × Nat)
  | [] => (f []).map fun g => (g.1, i, i + g.2)
  | c :: rest =>
    match f (c :: rest) with
    | some (g, len) => some (g, i, i + len)
    | none => searchFrom f (i + 1) rest

def search {α : Type} (f : List Char → Option (α × Nat)) (text : List Char) :
    Option (α × Nat × Nat) :=
  searchFrom f 0 text

/-- `m.start()`/`m.end()` span removal: `text[:start] + text[stop:]`. -/
def removeSpan (text : List Char) (start stop : Nat) : List Char :=
  text.take start ++ text.drop stop

/-- Try a list of literal alternatives in order; return the index of the
first alternative that matches together with its length. -/
def tryNames : List (List Char) → Nat → List Char → Option (Nat × Nat)
  | [], _, _ => none
  | n :: ns, i, s =>
    if (litMatch n s).isSome then some (i, n.length) else tryNames ns (i + 1) s

/-- The suffix ` мин(уты|ут)?` of the relative-minutes pattern; returns the
number of characters it consumes.  The greedy optional group tries `уты`,
then `ут`, then the empty alternative. -/
def minTail (s : List Char) : Option Nat :=
  (litMatch " мин".toList s).map fun r =>
    4 + (if (litMatch "уты".toList r).isSome then 3
         else if (litMatch "ут".toList r).isSome then 2 else 0)

/-- The suffix ` час(а|ов)?` of the relative-hours pattern. -/
def hourTail (s : List Char) : Option Nat :=
  (litMatch " час".toList s).map fun r =>
    4 + (if (litMatch "а".toList r).isSome then 1
         else if (litMatch "ов".toList r).isSome then 2 else 0)

/-- The suffix ` (день|дня|дней)` of the relative-days pattern. -/
def dayTail (s : List Char) : Option Nat :=
  (litMatch " ".toList s).bind fun r =>
    if (litMatch "день".toList r).isSome then some 5
    else if (litMatch "дня".toList r).isSome then some 4
    else if (litMatch "дней".toList r).isSome then some 5
    else none

/-- The group `([1-9][0-9]?)` followed by a required tail: the greedy
quantifier prefers two digits and backtracks to one when the tail fails. -/
def numThen (tail : List Char → Option Nat) (r : List Char) :
    Option (Nat × Nat) :=
  match r with
  | [] => none
  | c1 :: rest1 =>
    if isDigit19 c1 then
      let one : Option (Nat × Nat) :=
        match tail rest1 with
        | some tl => some (dval c1, 1 + tl)
        | none => none
      match rest1 with
      | c2 :: rest2 =>
        if isDigit c2 then
          match tail rest2 with
          | some tl => some (dval c1 * 10 + dval c2, 2 + tl)
          | none => one
        else one
      | [] => one
    else none

/-- Pattern `через ([1-9][0-9]?) мин(уты|ут)?`: captured minutes and span
length. -/
def minutesMatchAt (s : List Char) : Option (Nat × Nat) :=
  (litMatch "через ".toList s).bind fun r =>
    (numThen minTail r).map fun g => (g.1, 6 + g.2)

/-- Pattern `через ([1-9][0-9]?) час(а|ов)?`. -/
def hoursMatchAt (s : List Char) : Option (Nat × Nat) :=
  (litMatch "через ".toList s).bind fun r =>
    (numThen hourTail r).map fun g => (g.1, 6 + g.2)

/-- Pattern `через ([1-9][0-9]?) (день|дня|дней)`. -/
def daysMatchAt (s : List Char) : Option (Nat × Nat) :=
  (litMatch "через ".toList s).bind fun r =>
    (numThen dayTail r).map fun g => (g.1, 6 + g.2)

/-- Pattern `завтра( |$)`: the alternation tries the space first; `$` matches
at the end of the string or just before a final newline. -/
def tomorrowMatchAt (s : List Char) : Option (Unit × Nat) :=
  (litMatch "завтра".toList s).bind fun r =>
    match r with
    | ' ' :: _ => some ((), 7)
    | [] => some ((), 6)
    | ['\n'] => some ((), 6)
    | _ => none

def weekNames : List (List Char) :=
  ["пн".toList, "вт".toList, "ср".toList, "чт".toList, "пт".toList,
   "сб".toList, "вс".toList]

/-- Pattern `в (пн|вт|ср|чт|пт|сб|вс)`: captured weekday index and span
length. -/
def weekdayMatchAt (s : List Char) : Option (Nat × Nat) :=
  (litMatch "в ".toList s).bind fun r =>
    (tryNames weekNames 0 r).map fun g => (g.1, 2 + g.2)

def monthNames : List (List Char) :=
  ["января".toList, "февраля".toList, "марта".toList, "апреля".toList,
   "мая".toList, "июня".toList, "июля".toList, "августа".toList,
   "сентября".toList, "октября".toList, "ноября".toList, "декабря".toList]

/-- The suffix ` (января|…|декабря)`: 1-based month index and consumed
length. -/
def monthTail (s : List Char) : Option (Nat × Nat) :=
  (litMatch " ".toList s).bind fun r =>
    (tryNames monthNames 0 r).map fun g => (g.1 + 1, 1 + g.2)

/-- Pattern `([1-9][0-9]?) (января|…|декабря)`: captured `(day, month)` and
span length. -/
def monthdayMatchAt (s : List Char) : Option ((Nat × Nat) × Nat) :=
  match s with
  | [] => none
  | c1 :: rest1 =>
    if isDigit19 c1 then
      let one : Option ((Nat × Nat) × Nat) :=
        match monthTail rest1 with
        | some (mo, tl) => some ((dval c1, mo), 1 + tl)
        | none => none
      match rest1 with
      | c2 :: rest2 =>
        if isDigit c2 then
          match monthTail rest2 with
          | some (mo, tl) => some ((dval c1 * 10 + dval c2, mo), 2 + tl)
          | none => one
        else one
      | [] => one
    else none

/-- The optional group `((:| )(\d\d))?` of the time pattern: minutes value
and consumed length; the alternation tries `:` before the space. -/
def optMM : List Char → Option (Nat × Nat)
  | c :: d1 :: d2 :: _ =>
    if (c == ':' || c == ' ') && isDigit d1 && isDigit d2 then
      some (dval d1 * 10 + dval d2, 3)
    else none
  | _ => none

/-- Pattern `в (\d\d?)((:| )(\d\d))?`: captured `(hours, minutes)` (minutes
default 0 when the optional group is absent) and span length.  `\d\d?` takes
two digits whenever two are available; the optional group then matches or is
skipped — no backtracking into the digit count is ever needed because the
optional group can always be empty. -/
def timeMatchAt (s : List Char) : Option ((Nat × Nat) × Nat) :=
  (litMatch "в ".toList s).bind fun r =>
    match r with
    | [] => none
    | c1 :: rest1 =>
      if isDigit c1 then
        match rest1 with
        | c2 :: rest2 =>
          if isDigit c2 then
            match optMM rest2 with
            | some (mm, len) => some ((dval c1 * 10 + dval c2, mm), 4 + len)
            | none => some ((dval c1 * 10 + dval c2, 0), 4)
          else
            match optMM rest1 with
            | some (mm, len) => some ((dval c1, mm), 3 + len)
            | none => some ((dval c1, 0), 3)
        | [] => some ((dval c1, 0), 3)
      else none

/-! ### The matchers `p_*` and the driver `parse_reminder`

`ParseResult` mirrors the dataclass of `parser.py` (fields `date`, `delta`,
`time`); `delta` is a duration in whole minutes (`p_minutes` contributes `n`,
`p_hours` contributes `60·n`).  A matcher returns `ok none` when its pattern
does not occur, `ok (some (partial-result, start, stop))` on a match, and
`error _` when it raises. -/

structure ParseResult where
  date : Option Date
  delta : Option Nat
  time : Option Time
deriving DecidableEq, Repr

def emptyPR : ParseResult := ⟨none, none, none⟩

abbrev MatchRes := Except Err (Option (ParseResult × Nat × Nat))

def p_minutes (_now : DateTime) (text : List Char) : MatchRes :=
  match search minutesMatchAt text with
  | some (n, s, e) => .ok (some (⟨none, some n, none⟩, s, e))
  | none => .ok none

def p_hours (_now : DateTime) (text : List Char) : MatchRes :=
  match search hoursMatchAt text with
  | some (n, s, e) => .ok (some (⟨none, some (60 * n), none⟩, s, e))
  | none => .ok none

def p_days (now : DateTime) (text : List Char) : MatchRes :=
  match search daysMatchAt text with
  | some (n, s, e) => .ok (some (⟨some (addDays now.date n), none, none⟩, s, e))
  | none => .ok none

def p_tomorrow (now : DateTime) (text : List Char) : MatchRes :=
  match search tomorrowMatchAt text with
  | some (_, s, e) => .ok (some (⟨some (addDays now.date 1), none, none⟩, s, e))
  | none => .ok none

/-- `p_weekday` computes `n_days = ((weekday - now.weekday()) + 7) % 7` in
`int` arithmetic, exactly as the source does. -/
def p_weekday (now : DateTime) (text : List Char) : MatchRes :=
  match search weekdayMatchAt text with
  | some (w, s, e) =>
    let n_days : Int := ((w : Int) - (dateWeekday now.date : Int) + 7) % 7
    .ok (some (⟨some (addDays now.date n_days.toNat), none, none⟩, s, e))
  | none => .ok none

/-- `p_monthday` builds `date(now.year, month, day)` inside a `try` whose
`except ValueError` re-raises `ParseError`; the roll-forward
`date.replace(date.year + 1)` happens after the `try`, so a `ValueError`
raised by the re-validation of the advanced date escapes as a plain
`ValueError`. -/
def p_monthday (now : DateTime) (text : List Char) : MatchRes :=
  match search monthdayMatchAt text with
  | some ((day, mo), s, e) =>
    match Date.mk? now.date.year mo day with
    | none => .error .parseError
    | some d =>
      if dateLt d now.date then
        match Date.mk? (now.date.year + 1) mo day with
        | none => .error .valueError
        | some d2 => .ok (some (⟨some d2, none, none⟩, s, e))
      else .ok (some (⟨some d, none, none⟩, s, e))
  | none => .ok none

/-- `p_time` constructs `dt.time(hours, minutes)` unguarded: an out-of-range
value raises a plain `ValueError`. -/
def p_time (_now : DateTime) (text : List Char) : MatchRes :=
  match search timeMatchAt text with
  | some ((h, mi), s, e) =>
    match Time.mk? h mi with
    | none => .error .valueError
    | some t => .ok (some (⟨none, none, some t⟩, s, e))
  | none => .ok none

/-- The conflict test of the driver loop: two matchers populating the same
field abort the parse (`result.date and cur_result.date`, etc.; every value a
matcher stores is truthy). -/
def conflict (a b : ParseResult) : Bool :=
  (a.date.isSome && b.date.isSome) ||
  (a.delta.isSome && b.delta.isSome) ||
  (a.time.isSome && b.time.isSome)

/-- `vars(result).update({k: v ... if v is not None})`: the new value wins
when present. -/
def updF {α : Type} : Option α → Option α → Option α
  | some v, _ => some v
  | none, old => old

/-- One iteration of the driver loop: run a matcher against the residual
text, check the conflict rule, merge the contributed field and cut the
matched span out of the text. -/
def applyM (f : DateTime → List Char → MatchRes) (now : DateTime)
    (st : ParseResult × List Char) : Except Err (ParseResult × List Char) :=
  match f now st.2 with
  | .error e => .error e
  | .ok none => .ok st
  | .ok (some (cur, s, e)) =>
    if conflict st.1 cur then .error .parseError
    else
      .ok (⟨updF cur.date st.1.date, updF cur.delta st.1.delta,
            updF cur.time st.1.time⟩,
           removeSpan st.2 s e)

/-- Matchers 1–5 (`p_minutes`, `p_hours`, `p_days`, `p_tomorrow`,
`p_weekday`) in the iteration order of the driver loop (the definition order
of the `p_`-prefixed globals of `parser.py`). -/
def runPre5 (now : DateTime) (text : List Char) :
    Except Err (ParseResult × List Char) :=
  Except.bind (Except.bind (Except.bind (Except.bind
    (applyM p_minutes now (emptyPR, text))
    (applyM p_hours now)) (applyM p_days now)) (applyM p_tomorrow now))
    (applyM p_weekday now)

/-- Matchers 1–6: `runPre5` followed by `p_monthday`. -/
def runPre6 (now : DateTime) (text : List Char) :
    Except Err (ParseResult × List Char) :=
  Except.bind (runPre5 now text) (applyM p_monthday now)

/-- The full matcher loop: `runPre6` followed by `p_time`. -/
def runMatchers (now : DateTime) (text : List Char) :
    Except Err (ParseResult × List Char) :=
  Except.bind (runPre6 now text) (applyM p_time now)

/-- The resolution step after the loop (`parser.py` lines 110–128); the
`default_time` is 12:00.  The source's dead re-check of `delta` inside the
date branch is vacuous here because the branch is only reached with `delta`
empty. -/
def resolve (now : DateTime) (res : ParseResult) : Except Err DateTime :=
  match res.delta with
  | some n =>
    if res.date.isSome || res.time.isSome then .error .parseError
    else .ok (addMinutesDT now n)
  | none =>
    match res.date with
    | some d => .ok (combine d (res.time.getD ⟨12, 0, 0, 0⟩))
    | none =>
      match res.time with
      | some t =>
        let w := combine now.date t
        .ok (if dtLt w now then addDaysDT w 1 else w)
      | none => .error .parseError

/-- `parse_reminder(now, text)`: run the seven matchers, resolve the
timestamp, and return it with the stripped residual text. -/
def parse_reminder (now : DateTime) (text : List Char) :
    Except Err (DateTime × List Char) :=
  Except.bind (runMatchers now text) fun rt =>
    Except.map (fun when => (when, pyStrip rt.2)) (resolve now rt.1)

/-! ### The persistence store (`src/reminder/db.py`)

A store state is the list of rows of the `records` table in rowid order.
The `datetime` column holds `when.isoformat()` text and the SQL comparisons
on it are lexicographic; for the fixed-format ISO strings stored here that
order coincides with the chronological order, which `dtLt` implements. -/

structure Record where
  id : Nat
  chat_id : Int
  datetime : DateTime
  reminder : List Char
  sent : Bool
deriving DecidableEq, Repr

abbrev Store := List Record

/-- sqlite's rowid assignment for `integer primary key`: one more than the
largest existing rowid. -/
def freshId (db : Store) : Nat := (db.map Record.id).foldr max 0 + 1

/-- `DB.save_reminder`: insert a row with `sent = 0`. -/
def save_reminder (db : Store) (chat_id : Int) (when : DateTime)
    (what : List Char) : Store :=
  db ++ [⟨freshId db, chat_id, when, what, false⟩]

/-- The select of `DB.process_ready_to_send`:
`select chat_id, reminder from records where datetime < ? and sent = 0`. -/
def dueRows (db : Store) (now : DateTime) : List (Int × List Char) :=
  (db.filter fun r => dtLt r.datetime now && !r.sent).map fun r =>
    (r.chat_id, r.reminder)

/-- The update of `DB.process_ready_to_send`:
`update records set sent = 1 where datetime < ? and sent = 0`. -/
def markSentAll (db : Store) (now : DateTime) : Store :=
  db.map fun r =>
    if dtLt r.datetime now && !r.sent then
      ⟨r.id, r.chat_id, r.datetime, r.reminder, true⟩
    else r

/-- `DB.process_ready_to_send(now)` as a context manager: the rows are
selected and yielded; when the caller's `with`-block finishes normally the
selected rows are marked sent and committed (guarded by `if rows:`), but when
the caller's block raises, the exception re-enters the generator at `yield`,
the update and commit are skipped and the connection rolls back, leaving the
store unchanged.  `caller_raises` is the outcome of the caller's block;
the returned pair is (rows handed to the caller, store state afterwards). -/
def process_ready_to_send (db : Store) (now : DateTime)
    (caller_raises : Bool) : List (Int × List Char) × Store :=
  let rows := dueRows db now
  if caller_raises then (rows, db)
  else if rows.isEmpty then (rows, db)
  else (rows, markSentAll db now)

/-- `DB.list_unsent`:
`select id, datetime, reminder from records where chat_id = ? and sent = 0`. -/
def list_unsent (db : Store) (chat_id : Int) :
    List (Nat × DateTime × List Char) :=
  (db.filter fun r => r.chat_id == chat_id && !r.sent).map fun r =>
    (r.id, r.datetime, r.reminder)

/-- `DB.remove_reminder`: `delete from records where id = ?`, reporting
whether exactly one row was deleted. -/
def remove_reminder (db : Store) (record_id : Int) : Bool × Store :=
  ((db.filter fun r => (r.id : Int) == record_id).length == 1,
   db.filter fun r => !((r.id : Int) == record_id))

/-! ### Messages and the router (`src/reminder/bot.py`, `src/reminder/handlers.py`) -/

/-- The `Message` dataclass of `bot.py`. -/
structure Message where
  update_id : Int
  chat_id : Int
  text : List Char
deriving DecidableEq, Repr

def pad2 (n : Nat) : String := if n < 10 then "0" ++ toString n else toString n

def weekdayNames : List String :=
  ["Monday", "Tuesday", "Wednesday", "Thursday", "Friday", "Saturday",
   "Sunday"]

def monthAbbrevs : List String :=
  ["Jan", "Feb", "Mar", "Apr", "May", "Jun", "Jul", "Aug", "Sep", "Oct",
   "Nov", "Dec"]

/-- `date_fmt`: `strftime('%A, %d %b at %H:%M')`. -/
def date_fmt (v : DateTime) : String :=
  (weekdayNames.getD (dateWeekday v.date) "") ++ ", " ++ pad2 v.date.day ++
    " " ++ (monthAbbrevs.getD (v.date.month - 1) "") ++ " at " ++
    pad2 v.time.hour ++ ":" ++ pad2 v.time.minute

def startsWithSlash (l : List Char) : Bool :=
  match l with
  | '/' :: _ => true
  | _ => false

def startsWithList (p l : List Char) : Bool := (litMatchExact p l).isSome
where
  litMatchExact : List Char → List Char → Option (List Char)
    | [], s => some s
    | _ :: _, [] => none
    | p :: ps, c :: cs => if c == p then litMatchExact ps cs else none

/-- `message.text.strip('/')`: slashes removed from both ends. -/
def stripSlash (l : List Char) : List Char :=
  ((l.dropWhile (· == '/')).reverse.dropWhile (· == '/')).reverse

/-- The prefix of `l` up to (excluding) the first occurrence of `pat` as a
sublist — `l.split(pat)[1]` applied after the first occurrence was dropped. -/
def upToSub (pat : List Char) : List Char → List Char
  | [] => []
  | c :: r => if startsWithList pat (c :: r) then [] else c :: upToSub pat r

/-- Python `int(...)` on a string: optional surrounding whitespace, optional
sign, at least one digit. -/
def pyInt (l : List Char) : Option Int :=
  let core := (l.dropWhile isSpace).reverse.dropWhile isSpace |>.reverse
  let (neg, digitsPart) :=
    match core with
    | '-' :: r => (true, r)
    | '+' :: r => (false, r)
    | r => (false, r)
  if digitsPart ≠ [] && digitsPart.all isDigit then
    let n := digitsPart.foldl (fun acc c => acc * 10 + dval c) 0
    some (if neg then -(n : Int) else (n : Int))
  else none

/-- `handle_command` from `handlers.py`: `/list`, `/removeN`, otherwise
`Unknown command`.  Returns the reply and the (possibly mutated) store. -/
def handle_command (m : Message) (db : Store) : String × Store :=
  let command := stripSlash m.text
  if command == "list".toList then
    let rows := list_unsent db m.chat_id
    (if rows.isEmpty then "Not found"
     else
       String.intercalate "\n" (rows.map fun rw =>
         "[" ++ toString rw.1 ++ "] " ++ date_fmt rw.2.1 ++ ": " ++
           String.mk rw.2.2),
     db)
  else if startsWithList "remove".toList command then
    match pyInt (upToSub "remove".toList (command.drop 6)) with
    | none => ("Invalid record id", db)
    | some record_id =>
      let rs := remove_reminder db record_id
      (if rs.1 then "Removed reminder " ++ toString record_id
       else "Not found record with id " ++ toString record_id,
       rs.2)
  else ("Unknown command", db)

/-- `handle_message` from `handlers.py`.  Only `ParseError` is caught
(`except ParseError`); any other exception — e.g. the plain `ValueError`
from `p_time` — propagates to the caller, which the `error` result models.
On success the reply and the resulting store are returned. -/
def handle_message (now : DateTime) (m : Message) (db : Store) :
    Except Err (String × Store) :=
  if startsWithSlash m.text then .ok (handle_command m db)
  else
    match parse_reminder now m.text with
    | .error .parseError => .ok ("Could not parse date", db)
    | .error e => .error e
    | .ok (when, what) =>
      if what.isEmpty then .ok ("Empy reminder", db)
      else if dtLt when now then .ok ("Date is in the past", db)
      else
        .ok ("Reminder set on " ++ date_fmt when,
             save_reminder db m.chat_id when what)

/-- `Bot.on_message`: the handler's reply is sent back; any exception the
handler raises is caught, logged and replaced by the literal reply
`"Error"`.  This models the reply string produced at the Chat Client
boundary from the handler's outcome. -/
def on_message_reply (result : Except Err (String × Store)) : String :=
  match result with
  | .ok rs => rs.1
  | .error _ => "Error"

/-! ### The update filter (`Bot.get_updates`) -/

/-- The fields of one platform update item that `get_updates` inspects:
`message.chat.id`, `message.text` and `message.from.username`, each absent
field modelled by `none` (and `message.text` may also be present but
empty, which `.get('text')` treats as falsy). -/
structure TgMessage where
  chat_id : Int
  text : Option String
  username : Option String
deriving DecidableEq, Repr

structure Update where
  update_id : Int
  message : Option TgMessage
deriving DecidableEq, Repr

/-- The filter condition of the `get_updates` list comprehension:
`item.get('message', {}).get('text')` is truthy and
`item.get('message', {}).get('from', {}).get('username')` is in the
allow-list. -/
def update_accepted (allowed : List String) (u : Update) : Bool :=
  match u.message with
  | none => false
  | some msg =>
    (match msg.text with
     | none => false
     | some t => !(t == "")) &&
    (match msg.username with
     | none => false
     | some un => allowed.contains un)

/-- The element constructor of the comprehension:
`Message(update_id=…, chat_id=item['message']['chat']['id'],
text=item['message']['text'])` (the defaults are never used on accepted
items, whose message and text are present). -/
def buildMessage (u : Update) : Message :=
  ⟨u.update_id, ((u.message.map TgMessage.chat_id).getD 0),
   (((u.message.bind TgMessage.text).getD "").toList)⟩

/-- `Bot.get_updates` applied to the parsed `result` list of the platform
response: keep exactly the accepted items, in order. -/
def get_updates (allowed : List String) (items : List Update) : List Message :=
  (items.filter (update_accepted allowed)).map buildMessage

/-! ### The delivery loop (`src/reminder/sender.py`) -/

/-- The body of `Sender.send_reminders`'s `for chat_id, reminder in rows:`
loop.  `sendFails` tells which sends raise.  Each iteration attempts one
send; a raised exception leaves the loop at once.  Returns the list of
attempted sends and whether an exception escaped the loop. -/
def send_rows (sendFails : Int × List Char → Bool) :
    List (Int × List Char) → List (Int × List Char) × Bool
  | [] => ([], false)
  | r :: rest =>
    if sendFails r then ([r], true)
    else
      let tail := send_rows sendFails rest
      (r :: tail.1, tail.2)

/-- Argument binding for `DB.process_ready_to_send(self, now)`: the method
has a required positional parameter `now`; a call that supplies no value for
it raises `TypeError` (the generator's arity is checked as soon as the
decorated context manager is entered). -/
def process_ready_to_send_args (nowArg : Option DateTime) :
    Except Err DateTime :=
  match nowArg with
  | none => .error .typeError
  | some now => .ok now

/-- `Sender.send_reminders` (`sender.py` lines 23–27): the call
`self.db.process_ready_to_send()` supplies no `now` argument.  Were binding
to succeed, the yielded rows would be sent one by one and the rows marked
sent on normal completion of the `with`-block. -/
def send_reminders (db : Store) (sendFails : Int × List Char → Bool)
    (nowClock : Option DateTime) : Except Err (List (Int × List Char) × Store) :=
  match process_ready_to_send_args nowClock with
  | .error e => .error e
  | .ok now =>
    let rows := dueRows db now
    let attempt := send_rows sendFails rows
    let after := (process_ready_to_send db now attempt.2).2
    if attempt.2 then .error .sendError else .ok (attempt.1, after)

/-- The argument list of the call at `sender.py` line 24 is empty: the tick
always invokes `send_reminders` with no clock value. -/
def sender_tick (db : Store) (sendFails : Int × List Char → Bool) :
    Except Err (List (Int × List Char) × Store) :=
  send_reminders db sendFails none

/-- Sample clock used by the concrete witnesses: 2020-05-26 12:30, the `now`
of the repository's parser tests (a Tuesday). -/
def nowA : DateTime := ⟨⟨2020, 5, 26⟩, ⟨12, 30, 0, 0⟩⟩

/-- Sample clock late in a leap year: 2020-12-01 00:00. -/
def nowDec : DateTime := ⟨⟨2020, 12, 1⟩, ⟨0, 0, 0, 0⟩⟩

end Reminder

deriving instance DecidableEq for Except

namespace Reminder

/-! ### Helper lemmas -/

theorem date_mk?_some {y m d : Nat} {dd : Date}
    (h : Date.mk? y m d = some dd) : dd = ⟨y, m, d⟩ := by
  unfold Date.mk? at h
  split at h
  · injection h with h'
    exact h'.symm
  · cases h

/-! ### Claim C1 -/

/-- Claim C1: the spec says the Delivery Loop's tick passes the current time
to `DB.process_ready_to_send` and sends each returned `(chat_id, body)`
pair.  The code cannot do this: `Sender.send_reminders` (sender.py line 24)
calls `self.db.process_ready_to_send()` with no argument while the method
(db.py line 34) requires a positional `now`, so every tick raises
`TypeError` before any row is selected or any send is attempted.  This
theorem evaluates the tick on an arbitrary store: it always fails with
`TypeError` and never produces a row or a send. -/
theorem c1_theorem (db : Store) (sendFails : Int × List Char → Bool) :
    sender_tick db sendFails = Except.error Err.typeError := rfl

/-! ### Claim C2 -/

/-- Claim C2 (counterexample): a record can be returned by two separate
invocations of `DB.process_ready_to_send`.  Save a reminder due 10:00; a
first invocation at 11:00 whose caller raises while processing the rows
returns the record, skips the mark-sent update (the `yield` re-raises inside
the `with` block, so the update and commit never run), and a second
invocation at 11:00 returns the very same record again — contradicting the
claim's "no record is ever returned by two separate invocations … including
when the caller's processing of the returned rows raises an error". -/
theorem c2_counterexample :
    (process_ready_to_send
        (save_reminder [] 1 ⟨⟨2020, 5, 26⟩, ⟨10, 0, 0, 0⟩⟩ "x".toList)
        ⟨⟨2020, 5, 26⟩, ⟨11, 0, 0, 0⟩⟩ true).1 = [(1, "x".toList)] ∧
    (process_ready_to_send
        (process_ready_to_send
          (save_reminder [] 1 ⟨⟨2020, 5, 26⟩, ⟨10, 0, 0, 0⟩⟩ "x".toList)
          ⟨⟨2020, 5, 26⟩, ⟨11, 0, 0, 0⟩⟩ true).2
        ⟨⟨2020, 5, 26⟩, ⟨11, 0, 0, 0⟩⟩ false).1 = [(1, "x".toList)] := by
  decide

/-- Claim C2 (amended): a record saved with due time `t` and queried with an
`as_of` strictly after `t` is returned exactly once, and a second invocation
with the same or a later `as_of` returns it zero times — provided the first
caller's processing of the rows completes without raising.  When the
caller's processing raises, the mark-sent update is skipped and the record
can be returned again by a later invocation (see the counterexample). -/
theorem c2_theorem (chat : Int) (t as1 as2 : DateTime) (body : List Char)
    (cr : Bool) (h1 : dtLt t as1 = true)
    (_h2 : dtLt as1 as2 = true ∨ as1 = as2) :
    (process_ready_to_send (save_reminder [] chat t body) as1 false).1
      = [(chat, body)] ∧
    (process_ready_to_send
      (process_ready_to_send (save_reminder [] chat t body) as1 false).2
      as2 cr).1 = [] := by
  constructor
  · simp [process_ready_to_send, dueRows, save_reminder, freshId, h1]
  · cases cr <;>
      simp [process_ready_to_send, dueRows, markSentAll, save_reminder,
        freshId, h1]

/-- Witness for C2's amended theorem at a concrete store and times. -/
theorem c2_witness :
    (process_ready_to_send
        (save_reminder [] 1 ⟨⟨2020, 5, 26⟩, ⟨10, 0, 0, 0⟩⟩ "x".toList)
        ⟨⟨2020, 5, 26⟩, ⟨11, 0, 0, 0⟩⟩ false).1 = [(1, "x".toList)] ∧
    (process_ready_to_send
        (process_ready_to_send
          (save_reminder [] 1 ⟨⟨2020, 5, 26⟩, ⟨10, 0, 0, 0⟩⟩ "x".toList)
          ⟨⟨2020, 5, 26⟩, ⟨11, 0, 0, 0⟩⟩ false).2
        ⟨⟨2020, 5, 26⟩, ⟨11, 0, 0, 0⟩⟩ false).1 = [] :=
  c2_theorem 1 ⟨⟨2020, 5, 26⟩, ⟨10, 0, 0, 0⟩⟩ ⟨⟨2020, 5, 26⟩, ⟨11, 0, 0, 0⟩⟩
    ⟨⟨2020, 5, 26⟩, ⟨11, 0, 0, 0⟩⟩ "x".toList false (by decide) (Or.inr rfl)

/-! ### Claim C3 -/

/-- Claim C3 (counterexample): with two due rows where the send of the first
one raises, the tick's send loop attempts only the first row — the second
row of the same tick is never attempted, and the exception escapes the loop
— contradicting the claim that the loop iterates the batch to completion. -/
theorem c3_counterexample :
    (send_rows (fun p => p.1 == 1)
        [((1 : Int), "a".toList), (2, "b".toList)]).1
      = [((1 : Int), "a".toList)] ∧
    ¬ (((2 : Int), "b".toList) ∈
        (send_rows (fun p => p.1 == 1)
          [((1 : Int), "a".toList), (2, "b".toList)]).1) ∧
    (send_rows (fun p => p.1 == 1)
        [((1 : Int), "a".toList), (2, "b".toList)]).2 = true := by
  decide

/-- Claim C3 (amended): the send loop of `Sender.send_reminders` has no
per-row error handling, so the first failing send aborts the batch: the rows
before the failing one and the failing one itself are the only attempted
sends, the rows after it are not attempted, and the exception escapes the
loop (to be caught and logged by `Sender.start`, which then proceeds to the
next tick). -/
theorem c3_theorem (sendFails : Int × List Char → Bool)
    (pre post : List (Int × List Char)) (r : Int × List Char)
    (hpre : ∀ x ∈ pre, sendFails x = false) (hr : sendFails r = true) :
    send_rows sendFails (pre ++ r :: post) = (pre ++ [r], true) := by
  induction pre with
  | nil => simp [send_rows, hr]
  | cons a as ih =>
    have ha : sendFails a = false := hpre a (by simp)
    simp [send_rows, ha, ih (fun x hx => hpre x (by simp [hx]))]

/-- Witness for C3's amended theorem at a concrete batch. -/
theorem c3_witness :
    send_rows (fun p => p.1 == 1)
        [((2 : Int), "b".toList), (1, "a".toList), (3, "c".toList)]
      = ([((2 : Int), "b".toList), (1, "a".toList)], true) :=
  c3_theorem (fun p => p.1 == 1) [((2 : Int), "b".toList)]
    [((3 : Int), "c".toList)] ((1 : Int), "a".toList) (by decide) (by decide)

/-! ### Claim C4 -/

/-- Claim C4 (counterexample): at now = 2020-05-26 12:30 (a Tuesday) the
non-slash message "в вт" parses successfully to 2020-05-26 12:00, which is
strictly earlier than now, yet `handle_message` replies "Empy reminder" —
not "Date is in the past" — because the empty-residual check precedes the
past-due check. -/
theorem c4_counterexample :
    parse_reminder nowA "в вт".toList
      = .ok (⟨⟨2020, 5, 26⟩, ⟨12, 0, 0, 0⟩⟩, []) ∧
    dtLt ⟨⟨2020, 5, 26⟩, ⟨12, 0, 0, 0⟩⟩ nowA = true ∧
    handle_message nowA ⟨1, 7, "в вт".toList⟩ []
      = .ok ("Empy reminder", []) := by
  decide

/-- Claim C4 (amended): for every non-slash message whose text parses to a
due timestamp strictly earlier than the current time **and leaves a
non-empty residual body**, `handle_message` replies exactly
"Date is in the past" and leaves the store unchanged.  (With an empty
residual body the earlier "Empy reminder" check wins — see the
counterexample.) -/
theorem c4_theorem (now : DateTime) (m : Message) (db : Store)
    (when : DateTime) (what : List Char)
    (hslash : startsWithSlash m.text = false)
    (hparse : parse_reminder now m.text = .ok (when, what))
    (hnonempty : what ≠ [])
    (hpast : dtLt when now = true) :
    handle_message now m db = .ok ("Date is in the past", db) := by
  have hemp : what.isEmpty = false := by
    cases what with
    | nil => exact absurd rfl hnonempty
    | cons a as => rfl
  simp [handle_message, hslash, hparse, hemp, hpast]

/-- Witness for C4's amended theorem: "в вт покорми кота" at the Tuesday
clock parses to 12:00 today with residual "покорми кота". -/
theorem c4_witness :
    handle_message nowA ⟨1, 7, "в вт покорми кота".toList⟩ []
      = .ok ("Date is in the past", []) :=
  c4_theorem nowA ⟨1, 7, "в вт покорми кота".toList⟩ []
    ⟨⟨2020, 5, 26⟩, ⟨12, 0, 0, 0⟩⟩ "покорми кота".toList
    (by decide) (by decide) (by decide) (by decide)

/-! ### Claim C5 -/

/-- Claim C5 (counterexample): "29 февраля" against now = 2020-12-01 — the
date built from the current year (2020-02-29) is valid and strictly earlier
than today, so the claim demands a contributed date with the year advanced
by one; instead `date.replace(date.year + 1)` re-validates 2021-02-29, which
does not exist, and since the roll-forward sits outside the matcher's `try`,
a plain `ValueError` (not the claimed parse-failure `ParseError`, and not a
year-advanced date) escapes. -/
theorem c5_counterexample :
    search monthdayMatchAt "29 февраля".toList = some ((29, 2), 0, 10) ∧
    Date.mk? 2020 2 29 = some ⟨2020, 2, 29⟩ ∧
    dateLt ⟨2020, 2, 29⟩ nowDec.date = true ∧
    p_monthday nowDec "29 февраля".toList = .error .valueError := by
  decide

/-- Claim C5 (amended): when the month-day matcher fires, (1) if the date
built from the current year is valid, strictly earlier than today, and the
same month/day is also valid in the next year, the contributed date has its
year advanced by exactly one (month and day unchanged) — the Feb-29 →
non-leap-year case instead escapes with a plain `ValueError`, see the
counterexample; (2) an invalid day/month combination for the current year is
an immediate hard parse failure (`ParseError`), not a fall-through; (3) an
error raised by the month-day step aborts the whole parse with that error
(no later matcher runs). -/
theorem c5_theorem :
    (∀ (now : DateTime) (text : List Char) (day mo s e : Nat) (d d2 : Date),
      search monthdayMatchAt text = some ((day, mo), s, e) →
      Date.mk? now.date.year mo day = some d →
      dateLt d now.date = true →
      Date.mk? (now.date.year + 1) mo day = some d2 →
      p_monthday now text = .ok (some (⟨some d2, none, none⟩, s, e)) ∧
        d2.year = now.date.year + 1 ∧ d2.month = d.month ∧ d2.day = d.day) ∧
    (∀ (now : DateTime) (text : List Char) (day mo s e : Nat),
      search monthdayMatchAt text = some ((day, mo), s, e) →
      Date.mk? now.date.year mo day = none →
      p_monthday now text = .error .parseError) ∧
    (∀ (now : DateTime) (text : List Char) (res5 : ParseResult)
        (t5 : List Char) (er : Err),
      runPre5 now text = .ok (res5, t5) →
      applyM p_monthday now (res5, t5) = .error er →
      parse_reminder now text = .error er) := by
  refine ⟨?_, ?_, ?_⟩
  · intro now text day mo s e d d2 hsearch hmk hlt hmk2
    have hd := date_mk?_some hmk
    have hd2 := date_mk?_some hmk2
    subst hd hd2
    refine ⟨?_, rfl, rfl, rfl⟩
    simp [p_monthday, hsearch, hmk, hlt, hmk2]
  · intro now text day mo s e hsearch hmk
    simp [p_monthday, hsearch, hmk]
  · intro now text res5 t5 er h5 hstep
    simp [parse_reminder, runMatchers, runPre6, h5, hstep, Except.bind]

/-- Witness for C5's amended theorem: part (2) at "31 апреля" (April has 30
days, so the build fails and the matcher raises the parse failure), part (1)
at "15 апреля" against the Tuesday clock (April 15 2020 already passed, so
the year advances to 2021), and the spec's end-to-end example
"15 апреля в 21:21" → 2021-04-15 21:21. -/
theorem c5_witness :
    p_monthday nowA "31 апреля".toList = .error .parseError ∧
    p_monthday nowA "15 апреля".toList
      = .ok (some (⟨some ⟨2021, 4, 15⟩, none, none⟩, 0, 9)) ∧
    parse_reminder nowA "15 апреля в 21:21".toList
      = .ok (⟨⟨2021, 4, 15⟩, ⟨21, 21, 0, 0⟩⟩, []) :=
  ⟨c5_theorem.2.1 nowA "31 апреля".toList 31 4 0 9 (by decide) (by decide),
   (c5_theorem.1 nowA "15 апреля".toList 15 4 0 9 ⟨2020, 4, 15⟩ ⟨2021, 4, 15⟩
     (by decide) (by decide) (by decide) (by decide)).1,
   by decide⟩

/-! ### Claim C7 -/

/-- Claim C7: when after the matcher loop only the time-of-day field is
populated (no date and no delta), the due timestamp is today's date combined
with the matched clock time, rolled forward by one day exactly when that
combination is strictly earlier than now. -/
theorem c7_theorem (now : DateTime) (text : List Char) (res : ParseResult)
    (rem : List Char) (t : Time)
    (hrun : runMatchers now text = .ok (res, rem))
    (hdelta : res.delta = none) (hdate : res.date = none)
    (htime : res.time = some t) :
    parse_reminder now text =
      .ok ((if dtLt (combine now.date t) now
            then addDaysDT (combine now.date t) 1
            else combine now.date t), pyStrip rem) := by
  simp [parse_reminder, hrun, resolve, hdelta, hdate, htime, Except.bind,
    Except.map]

/-- Witness for C7: the spec's two examples against now = 2020-05-26 12:30 —
"в 21" stays on the same day (21:00 > now) and "в 8 10" rolls to the next
morning (08:10 < now). -/
theorem c7_witness :
    runMatchers nowA "в 21".toList
      = .ok (⟨none, none, some ⟨21, 0, 0, 0⟩⟩, []) ∧
    parse_reminder nowA "в 21".toList
      = .ok (⟨⟨2020, 5, 26⟩, ⟨21, 0, 0, 0⟩⟩, []) ∧
    parse_reminder nowA "в 8 10".toList
      = .ok (⟨⟨2020, 5, 27⟩, ⟨8, 10, 0, 0⟩⟩, []) :=
  ⟨by decide,
   (c7_theorem nowA "в 21".toList ⟨none, none, some ⟨21, 0, 0, 0⟩⟩ []
     ⟨21, 0, 0, 0⟩ (by decide) rfl rfl rfl).trans (by decide),
   (c7_theorem nowA "в 8 10".toList ⟨none, none, some ⟨8, 10, 0, 0⟩⟩ []
     ⟨8, 10, 0, 0⟩ (by decide) rfl rfl rfl).trans (by decide)⟩

/-! ### Claim C8 -/

/-- Claim C8: whenever the weekday matcher fires with target index `w`, the
contributed date is today plus `((w - today_weekday) mod 7)` days (the
source's `((w - today) + 7) % 7` equals the mathematical mod), and when the
named weekday equals today's weekday the offset is 0 so the date resolves to
today, not to the same weekday next week. -/
theorem c8_theorem (now : DateTime) (text : List Char) (w s e : Nat)
    (hsearch : search weekdayMatchAt text = some (w, s, e)) :
    p_weekday now text =
      .ok (some (⟨some (addDays now.date
        ((((w : Int) - (dateWeekday now.date : Int)) % 7).toNat)),
        none, none⟩, s, e)) ∧
    (w = dateWeekday now.date →
      p_weekday now text = .ok (some (⟨some now.date, none, none⟩, s, e))) := by
  constructor
  · have hmod : ((w : Int) - (dateWeekday now.date : Int) + 7) % 7
        = ((w : Int) - (dateWeekday now.date : Int)) % 7 := by
      omega
    simp [p_weekday, hsearch, hmod]
  · intro hw
    have h1 : ((w : Int) - (dateWeekday now.date : Int)) % 7 = 0 := by
      rw [hw]
      simp
    simp [p_weekday, hsearch, h1, addDays]

/-- Witness for C8: "в пт" (target Friday, index 4) against the Tuesday
clock contributes 2020-05-29, and the spec's end-to-end example
"в пт в 21:20" parses to 2020-05-29 21:20. -/
theorem c8_witness :
    search weekdayMatchAt "в пт".toList = some (4, 0, 4) ∧
    p_weekday nowA "в пт".toList
      = .ok (some (⟨some ⟨2020, 5, 29⟩, none, none⟩, 0, 4)) ∧
    parse_reminder nowA "в пт в 21:20".toList
      = .ok (⟨⟨2020, 5, 29⟩, ⟨21, 20, 0, 0⟩⟩, []) :=
  ⟨by decide,
   ((c8_theorem nowA "в пт".toList 4 0 4 (by decide)).1).trans (by decide),
   by decide⟩

/-! ### Claim C9 -/

theorem update_accepted_iff (allowed : List String) (u : Update) :
    update_accepted allowed u = true ↔
      ∃ msg txt un, u.message = some msg ∧ msg.text = some txt ∧ txt ≠ "" ∧
        msg.username = some un ∧ un ∈ allowed := by
  obtain ⟨uid, msg?⟩ := u
  cases msg? with
  | none => simp [update_accepted]
  | some msg =>
    obtain ⟨cid, txt?, un?⟩ := msg
    cases txt? with
    | none => simp [update_accepted]
    | some txt =>
      cases un? with
      | none => simp [update_accepted]
      | some un =>
        constructor
        · intro h
          simp only [update_accepted, Bool.and_eq_true, Bool.not_eq_true',
            beq_eq_false_iff_ne, ne_eq] at h
          exact ⟨⟨cid, some txt, some un⟩, txt, un, rfl, rfl, h.1, rfl,
            List.elem_iff.mp h.2⟩
        · rintro ⟨msg, txt', un', hmsg, htxt, hne, hun, hmem⟩
          injection hmsg with hmsg
          subst hmsg
          injection htxt with htxt
          injection hun with hun
          subst htxt hun
          simp only [update_accepted, Bool.and_eq_true, Bool.not_eq_true',
            beq_eq_false_iff_ne, ne_eq]
          exact ⟨hne, List.elem_iff.mpr hmem⟩

/-- Claim C9: `Bot.get_updates` returns exactly the messages built from
those updates that both carry non-empty message text and whose sender's
username is in the allow-list; every update failing either condition
contributes nothing, so unauthorized messages never reach the Router. -/
theorem c9_theorem (allowed : List String) (items : List Update)
    (m : Message) :
    m ∈ get_updates allowed items ↔
      ∃ u, u ∈ items ∧
        (∃ msg txt un, u.message = some msg ∧ msg.text = some txt ∧
          txt ≠ "" ∧ msg.username = some un ∧ un ∈ allowed) ∧
        m = buildMessage u := by
  unfold get_updates
  rw [List.mem_map]
  constructor
  · rintro ⟨u, hu, rfl⟩
    rw [List.mem_filter] at hu
    exact ⟨u, hu.1, (update_accepted_iff allowed u).mp hu.2, rfl⟩
  · rintro ⟨u, hu, hspec, rfl⟩
    exact ⟨u, List.mem_filter.mpr
      ⟨hu, (update_accepted_iff allowed u).mpr hspec⟩, rfl⟩

/-- Witness for C9 at a concrete update list: the allowed sender's message
is returned, built from its update. -/
theorem c9_witness :
    (⟨5, 7, "hi".toList⟩ : Message) ∈
      get_updates ["alice"]
        [⟨5, some ⟨7, some "hi", some "alice"⟩⟩,
         ⟨6, some ⟨8, some "yo", some "bob"⟩⟩] :=
  ( c9_theorem ["alice"] _ _).mpr
    ⟨⟨5, some ⟨7, some "hi", some "alice"⟩⟩, by decide,
     ⟨⟨7, some "hi", some "alice"⟩, "hi", "alice", rfl, rfl, by decide, rfl,
      by decide⟩, by decide⟩

/-! ### Claim C10 -/

/-- Claim C10: when the time-of-day matcher is reached and matches an
out-of-range clock value (hour above 23 or minutes above 59), the parser
raises a plain `ValueError` that is not a `ParseError`: `handle_message`
does not catch it (so it does not reply "Could not parse date"), the error
escapes the Router, and only the Chat Client boundary (`Bot.on_message`)
converts it to the generic "Error" reply. -/
theorem c10_theorem (now : DateTime) (m : Message) (db : Store)
    (res : ParseResult) (t6 : List Char) (h mi s e : Nat)
    (hslash : startsWithSlash m.text = false)
    (hpre : runPre6 now m.text = .ok (res, t6))
    (hsearch : search timeMatchAt t6 = some ((h, mi), s, e))
    (hrange : 23 < h ∨ 59 < mi) :
    parse_reminder now m.text = .error .valueError ∧
    handle_message now m db = .error .valueError ∧
    on_message_reply (handle_message now m db) = "Error" := by
  have hmk : Time.mk? h mi = none := by
    rcases hrange with h1 | h1
    · have : ¬ (h ≤ 23) := by omega
      simp [Time.mk?, this]
    · have : ¬ (mi ≤ 59) := by omega
      simp [Time.mk?, this]
  have hpt : p_time now t6 = .error .valueError := by
    simp [p_time, hsearch, hmk]
  have hparse : parse_reminder now m.text = .error .valueError := by
    simp [parse_reminder, runMatchers, hpre, applyM, hpt, Except.bind]
  have hhm : handle_message now m db = .error .valueError := by
    simp [handle_message, hslash, hparse]
  exact ⟨hparse, hhm, by simp [on_message_reply, hhm]⟩

/-- Witness for C10: the non-slash message "в 99" — the matcher captures
hour 99, the parser escapes with the plain `ValueError`, and the boundary
reply is "Error". -/
theorem c10_witness :
    parse_reminder nowA "в 99".toList = .error .valueError ∧
    handle_message nowA ⟨1, 7, "в 99".toList⟩ [] = .error .valueError ∧
    on_message_reply (handle_message nowA ⟨1, 7, "в 99".toList⟩ [])
      = "Error" :=
  c10_theorem nowA ⟨1, 7, "в 99".toList⟩ [] emptyPR "в 99".toList 99 0 0 4
    (by decide) (by decide) (by decide) (Or.inl (by decide))

/-! ### Claim C6

The matchers that run between `p_minutes` and `p_time` can only (a) not
fire, leaving the residual text untouched, (b) contribute a `date` (or, for
`p_hours`, a conflicting second `delta`), or (c) raise.  The invariant
`C6Inv` captures the reachable states: once `p_minutes` has set `delta`,
every continuation either already failed, or still has `delta` set, no
`time`, and either some `date` contribution or the untouched residual
`t1`.  In every completion of such a state the resolution step fails — so a
text containing both a relative-minutes phrase and a (well-formed)
time-of-day phrase never parses. -/

/-- Matcher-shape fact: a successful `p_hours` match contributes only
`delta`. -/
theorem p_hours_shape {now : DateTime} {t : List Char} {pr : ParseResult}
    {s e : Nat} (h : p_hours now t = .ok (some (pr, s, e))) :
    pr.delta.isSome = true ∧ pr.date = none ∧ pr.time = none := by
  cases hs : search hoursMatchAt t with
  | none => simp [p_hours, hs] at h
  | some v =>
    obtain ⟨n, s', e'⟩ := v
    simp only [p_hours, hs, Except.ok.injEq, Option.some.injEq,
      Prod.mk.injEq] at h
    obtain ⟨h1, -, -⟩ := h
    subst h1
    exact ⟨rfl, rfl, rfl⟩

/-- Matcher-shape fact: a successful `p_days` match contributes only
`date`. -/
theorem p_days_shape {now : DateTime} {t : List Char} {pr : ParseResult}
    {s e : Nat} (h : p_days now t = .ok (some (pr, s, e))) :
    pr.date.isSome = true ∧ pr.delta = none ∧ pr.time = none := by
  cases hs : search daysMatchAt t with
  | none => simp [p_days, hs] at h
  | some v =>
    obtain ⟨n, s', e'⟩ := v
    simp only [p_days, hs, Except.ok.injEq, Option.some.injEq,
      Prod.mk.injEq] at h
    obtain ⟨h1, -, -⟩ := h
    subst h1
    exact ⟨rfl, rfl, rfl⟩

/-- Matcher-shape fact: a successful `p_tomorrow` match contributes only
`date`. -/
theorem p_tomorrow_shape {now : DateTime} {t : List Char} {pr : ParseResult}
    {s e : Nat} (h : p_tomorrow now t = .ok (some (pr, s, e))) :
    pr.date.isSome = true ∧ pr.delta = none ∧ pr.time = none := by
  cases hs : search tomorrowMatchAt t with
  | none => simp [p_tomorrow, hs] at h
  | some v =>
    obtain ⟨n, s', e'⟩ := v
    simp only [p_tomorrow, hs, Except.ok.injEq, Option.some.injEq,
      Prod.mk.injEq] at h
    obtain ⟨h1, -, -⟩ := h
    subst h1
    exact ⟨rfl, rfl, rfl⟩

/-- Matcher-shape fact: a successful `p_weekday` match contributes only
`date`. -/
theorem p_weekday_shape {now : DateTime} {t : List Char} {pr : ParseResult}
    {s e : Nat} (h : p_weekday now t = .ok (some (pr, s, e))) :
    pr.date.isSome = true ∧ pr.delta = none ∧ pr.time = none := by
  cases hs : search weekdayMatchAt t with
  | none => simp [p_weekday, hs] at h
  | some v =>
    obtain ⟨n, s', e'⟩ := v
    simp only [p_weekday, hs, Except.ok.injEq, Option.some.injEq,
      Prod.mk.injEq] at h
    obtain ⟨h1, -, -⟩ := h
    subst h1
    exact ⟨rfl, rfl, rfl⟩

/-- Matcher-shape fact: a successful `p_monthday` match contributes only
`date` (its failure modes raise instead). -/
theorem p_monthday_shape {now : DateTime} {t : List Char} {pr : ParseResult}
    {s e : Nat} (h : p_monthday now t = .ok (some (pr, s, e))) :
    pr.date.isSome = true ∧ pr.delta = none ∧ pr.time = none := by
  cases hs : search monthdayMatchAt t with
  | none => simp [p_monthday, hs] at h
  | some v =>
    obtain ⟨⟨day, mo⟩, s', e'⟩ := v
    cases hmk : Date.mk? now.date.year mo day with
    | none => simp [p_monthday, hs, hmk] at h
    | some d =>
      by_cases hlt : dateLt d now.date = true
      · cases hmk2 : Date.mk? (now.date.year + 1) mo day with
        | none => simp [p_monthday, hs, hmk, hlt, hmk2] at h
        | some d2 =>
          simp only [p_monthday, hs, hmk, hlt, hmk2, if_true,
            Except.ok.injEq, Option.some.injEq, Prod.mk.injEq] at h
          obtain ⟨h1, -, -⟩ := h
          subst h1
          exact ⟨rfl, rfl, rfl⟩
      · rw [Bool.not_eq_true] at hlt
        simp only [p_monthday, hs, hmk, hlt, Bool.false_eq_true, if_false,
          Except.ok.injEq, Option.some.injEq, Prod.mk.injEq] at h
        obtain ⟨h1, -, -⟩ := h
        subst h1
        exact ⟨rfl, rfl, rfl⟩

/-- Matcher-shape fact: a successful `p_time` match contributes only
`time`. -/
theorem p_time_shape {now : DateTime} {t : List Char} {pr : ParseResult}
    {s e : Nat} (h : p_time now t = .ok (some (pr, s, e))) :
    pr.time.isSome = true ∧ pr.date = none ∧ pr.delta = none := by
  cases hs : search timeMatchAt t with
  | none => simp [p_time, hs] at h
  | some v =>
    obtain ⟨⟨hh, mm⟩, s', e'⟩ := v
    cases hmk : Time.mk? hh mm with
    | none => simp [p_time, hs, hmk] at h
    | some tv =>
      simp only [p_time, hs, hmk, Except.ok.injEq, Option.some.injEq,
        Prod.mk.injEq] at h
      obtain ⟨h1, -, -⟩ := h
      subst h1
      exact ⟨rfl, rfl, rfl⟩

/-- The reachable states of the driver loop after `p_minutes` has fired on a
text whose minutes-span removal is `t1`. -/
def C6Inv (t1 : List Char) (x : Except Err (ParseResult × List Char)) :
    Prop :=
  (∃ e, x = .error e) ∨
  (∃ res t, x = .ok (res, t) ∧ res.delta.isSome = true ∧ res.time = none ∧
    (res.date.isSome = true ∨ (res.date = none ∧ t = t1)))

/-- After a fired `p_minutes`, the loop state satisfies the invariant. -/
theorem c6_start (now : DateTime) (text : List Char) (n s e : Nat)
    (h : search minutesMatchAt text = some (n, s, e)) :
    applyM p_minutes now (emptyPR, text)
      = .ok (⟨none, some n, none⟩, removeSpan text s e) := by
  simp [applyM, p_minutes, h, conflict, emptyPR, updF]

/-- Invariant step for a matcher that can only contribute `delta` (a second
delta is an immediate conflict). -/
theorem c6inv_step_delta (f : DateTime → List Char → MatchRes)
    (hf : ∀ now t pr s e, f now t = .ok (some (pr, s, e)) →
      pr.delta.isSome = true ∧ pr.date = none ∧ pr.time = none)
    (now : DateTime) (t1 : List Char)
    (x : Except Err (ParseResult × List Char)) (hx : C6Inv t1 x) :
    C6Inv t1 (Except.bind x (applyM f now)) := by
  rcases hx with ⟨e, rfl⟩ | ⟨res, t, rfl, hdelta, htime, hdate⟩
  · exact Or.inl ⟨e, rfl⟩
  · show C6Inv t1 (applyM f now (res, t))
    cases hfv : f now t with
    | error e => exact Or.inl ⟨e, by simp [applyM, hfv]⟩
    | ok o =>
      cases o with
      | none => exact Or.inr ⟨res, t, by simp [applyM, hfv], hdelta, htime,
          hdate⟩
      | some v =>
        obtain ⟨pr, s, e⟩ := v
        obtain ⟨hprdel, hprd, hprt⟩ := hf now t pr s e hfv
        have hc : conflict res pr = true := by
          simp [conflict, hdelta, hprdel]
        exact Or.inl ⟨.parseError, by simp [applyM, hfv, hc]⟩

/-- Invariant step for a matcher that can only contribute `date` (or
raise). -/
theorem c6inv_step_date (f : DateTime → List Char → MatchRes)
    (hf : ∀ now t pr s e, f now t = .ok (some (pr, s, e)) →
      pr.date.isSome = true ∧ pr.delta = none ∧ pr.time = none)
    (now : DateTime) (t1 : List Char)
    (x : Except Err (ParseResult × List Char)) (hx : C6Inv t1 x) :
    C6Inv t1 (Except.bind x (applyM f now)) := by
  rcases hx with ⟨e, rfl⟩ | ⟨res, t, rfl, hdelta, htime, hdate⟩
  · exact Or.inl ⟨e, rfl⟩
  · show C6Inv t1 (applyM f now (res, t))
    cases hfv : f now t with
    | error e => exact Or.inl ⟨e, by simp [applyM, hfv]⟩
    | ok o =>
      cases o with
      | none => exact Or.inr ⟨res, t, by simp [applyM, hfv], hdelta, htime,
          hdate⟩
      | some v =>
        obtain ⟨pr, s, e⟩ := v
        obtain ⟨hprd, hprdel, hprt⟩ := hf now t pr s e hfv
        by_cases hc : conflict res pr = true
        · exact Or.inl ⟨.parseError, by simp [applyM, hfv, hc]⟩
        · rw [Bool.not_eq_true] at hc
          refine Or.inr ⟨⟨updF pr.date res.date, updF pr.delta res.delta,
            updF pr.time res.time⟩, removeSpan t s e,
            by simp [applyM, hfv, hc], ?_, ?_, ?_⟩
          · simp [hprdel, updF, hdelta]
          · simp [hprt, updF, htime]
          · left
            obtain ⟨dd, hdd⟩ := Option.isSome_iff_exists.mp hprd
            simp [updF, hdd]

/-- Completion: from any invariant state, running `p_time` and resolving
fails, provided the untouched residual contains a well-formed time-of-day
phrase. -/
theorem c6_final (now : DateTime) (t1 : List Char)
    (x : Except Err (ParseResult × List Char)) (hx : C6Inv t1 x)
    (hh mm s2 e2 : Nat) (tv : Time)
    (ht : search timeMatchAt t1 = some ((hh, mm), s2, e2))
    (hmk : Time.mk? hh mm = some tv) :
    ∃ er, Except.bind (Except.bind x (applyM p_time now)) (fun rt =>
      Except.map (fun when => (when, pyStrip rt.2)) (resolve now rt.1))
        = Except.error er := by
  rcases hx with ⟨e, rfl⟩ | ⟨res, t, rfl, hdelta, htime, hdate⟩
  · exact ⟨e, rfl⟩
  · obtain ⟨nv, hnv⟩ := Option.isSome_iff_exists.mp hdelta
    rcases hdate with hdate | ⟨hdate, rfl⟩
    · -- a date was contributed: resolution fails whatever `p_time` does
      cases hfv : p_time now t with
      | error e => exact ⟨e, by simp [applyM, hfv, Except.bind]⟩
      | ok o =>
        cases o with
        | none =>
          refine ⟨.parseError, ?_⟩
          simp [applyM, hfv, Except.bind, resolve, hnv, hdate, Except.map]
        | some v =>
          obtain ⟨pr, s, e⟩ := v
          obtain ⟨hprt, hprd, hprdel⟩ := p_time_shape hfv
          by_cases hc : conflict res pr = true
          · exact ⟨.parseError, by simp [applyM, hfv, hc, Except.bind]⟩
          · rw [Bool.not_eq_true] at hc
            refine ⟨.parseError, ?_⟩
            obtain ⟨dd, hdd⟩ := Option.isSome_iff_exists.mp hdate
            simp [applyM, hfv, hc, Except.bind, resolve, updF, hprdel, hprd,
              hnv, hdd, Except.map]
      -- the residual is untouched: `p_time` fires with a valid time
    · have hfv : p_time now t = .ok (some (⟨none, none, some tv⟩, s2, e2)) := by
        simp [p_time, ht, hmk]
      have hc : conflict res ⟨none, none, some tv⟩ = false := by
        simp [conflict, hdate, htime]
      refine ⟨.parseError, ?_⟩
      simp [applyM, hfv, hc, Except.bind, resolve, updF, hnv, htime, hdate,
        Except.map]

/-- Claim C6: an input containing a relative-minutes phrase (`p_minutes`
fires) together with a well-formed time-of-day phrase surviving in the
residual text (`p_time`'s pattern matches the text with the minutes span
removed and the captured value is a valid clock time) never parses:
`parse_reminder` fails with an error instead of silently picking one of the
two interpretations. -/
theorem c6_theorem (now : DateTime) (text : List Char)
    (n s e hh mm s2 e2 : Nat) (tv : Time)
    (hmin : search minutesMatchAt text = some (n, s, e))
    (ht : search timeMatchAt (removeSpan text s e) = some ((hh, mm), s2, e2))
    (hmk : Time.mk? hh mm = some tv) :
    ∃ er, parse_reminder now text = Except.error er := by
  have h1 : C6Inv (removeSpan text s e)
      (applyM p_minutes now (emptyPR, text)) := by
    rw [c6_start now text n s e hmin]
    exact Or.inr ⟨_, _, rfl, rfl, rfl, Or.inr ⟨rfl, rfl⟩⟩
  have h2 := c6inv_step_delta p_hours (fun _ _ _ _ _ h => p_hours_shape h)
    now _ _ h1
  have h3 := c6inv_step_date p_days (fun _ _ _ _ _ h => p_days_shape h)
    now _ _ h2
  have h4 := c6inv_step_date p_tomorrow
    (fun _ _ _ _ _ h => p_tomorrow_shape h) now _ _ h3
  have h5 := c6inv_step_date p_weekday
    (fun _ _ _ _ _ h => p_weekday_shape h) now _ _ h4
  have h6 := c6inv_step_date p_monthday
    (fun _ _ _ _ _ h => p_monthday_shape h) now _ _ h5
  exact c6_final now (removeSpan text s e) (runPre6 now text) h6 hh mm s2 e2
    tv ht hmk

/-- Witness for C6: "через 5 мин в 10" — the minutes phrase spans the first
11 characters, the residual " в 10" still contains the valid time phrase,
and the parse fails. -/
theorem c6_witness :
    search minutesMatchAt "через 5 мин в 10".toList = some (5, 0, 11) ∧
    (∃ er, parse_reminder nowA "через 5 мин в 10".toList
      = Except.error er) :=
  ⟨by decide,
   c6_theorem nowA "через 5 мин в 10".toList 5 0 11 10 0 1 5 ⟨10, 0, 0, 0⟩
     (by decide) (by decide) (by decide)⟩

end Reminder
